import Mathlib

/-!
Shallow embedding of the VoiceTools cog (src/voicetools/voicetools.py).

The cog has two parts: a policy evaluator driven by voice-state events
(`on_voice_state_update`, `_vip_check`, `_forcelimit_check`) and a per-guild
ignore/VIP list store mutated by administrative commands (`forcelimit_add`,
`forcelimit_remove`, `vip_add`, `vip_remove`) with paginated rendering
(`forcelimit_ignorelist`, `vip_list`).

Identifiers (member, role, channel ids) are modelled as `Nat`.  Host side
effects (`channel.edit(user_limit=...)`, the create/move/delete forced
disconnect) are modelled as emitted actions; the forced-disconnect sequence
is additionally modelled at the host-call level with explicit failure of
each call, since exceptions there decide the cleanup behaviour.
-/

namespace VoiceTools

/-- A live voice channel as read by the evaluator: its id, its `user_limit`
    (0 = unlimited) and `len(channel.members)`, the occupant count at the
    time of the read. -/
structure Channel where
  id : Nat
  user_limit : Nat
  numMembers : Nat
deriving DecidableEq

/-- One side of a voice-state update (`before` / `after`): the channel the
    member is in, if any. -/
structure VoiceState where
  channel : Option Channel
deriving DecidableEq

/-- The member a voice-state event is about: their id and the ids of the
    roles they hold (`member.roles`). -/
structure Member where
  id : Nat
  roles : List Nat
deriving DecidableEq

/-- The per-guild configuration record registered in `VoiceTools.__init__`:
    two feature toggles and five id lists, defaulting to false/empty. -/
structure GuildConfig where
  forcelimit_enabled : Bool := false
  forcelimit_ignore_member_list : List Nat := []
  forcelimit_ignore_role_list : List Nat := []
  forcelimit_ignore_vc_list : List Nat := []
  vip_enabled : Bool := false
  vip_member_list : List Nat := []
  vip_role_list : List Nat := []
deriving DecidableEq

/-- Actions the evaluator issues to the host.  `channel.edit(user_limit=n)`
    becomes `SetChannelCapacity channelId n`; the forced-disconnect
    create/move/delete sequence of `_forcelimit_check` becomes a single
    `ForceDisconnect memberId channelId` at this level (its internal
    host calls are modelled separately below). -/
inductive Action where
  | SetChannelCapacity (channelId : Nat) (newLimit : Nat)
  | ForceDisconnect (memberId : Nat) (channelId : Nat)
deriving DecidableEq

/-- One edit leg of `_vip_check`: `if ch is not None and ch.user_limit != 0:
    await ch.edit(user_limit=newLimit(ch.user_limit))`. -/
def limitEdit (oc : Option Channel) (newLimit : Nat → Nat) : List Action :=
  match oc with
  | some c =>
      if c.user_limit ≠ 0 then
        [Action.SetChannelCapacity c.id (newLimit c.user_limit)]
      else []
  | none => []

/-- `_vip_check`: if the member changed channel (`before.channel is not
    after.channel`) and is a VIP by member id or by any held role id, lower
    the limit of the channel left (when its limit is non-zero) and raise the
    limit of the channel entered (when its limit is non-zero), in that order. -/
def vip_check (cfg : GuildConfig) (member : Member)
    (before after : VoiceState) : List Action :=
  if before.channel ≠ after.channel then
    let member_on_list := member.id ∈ cfg.vip_member_list
    let role_list := member.roles.filter (fun r => r ∈ cfg.vip_role_list)
    if member_on_list ∨ role_list ≠ [] then
      limitEdit before.channel (fun n => n - 1) ++
        limitEdit after.channel (fun n => n + 1)
    else []
  else []

/-- `_forcelimit_check`: if there is a destination channel with non-zero
    limit whose occupant count exceeds the limit, and the member is not
    exempt via the ignore-member, ignore-role or ignore-channel list,
    force-disconnect the member from that channel. -/
def forcelimit_check (cfg : GuildConfig) (member : Member)
    (after : VoiceState) : List Action :=
  match after.channel with
  | some channel =>
      if channel.user_limit ≠ 0 ∧ channel.numMembers > channel.user_limit then
        if member.id ∈ cfg.forcelimit_ignore_member_list
            ∨ (∃ r ∈ member.roles, r ∈ cfg.forcelimit_ignore_role_list)
            ∨ channel.id ∈ cfg.forcelimit_ignore_vc_list then
          []
        else
          [Action.ForceDisconnect member.id channel.id]
      else []
  | none => []

/-- `on_voice_state_update`: run the VIP check when `vip_enabled`, then the
    ForceLimit check when `forcelimit_enabled`, collecting the actions in
    evaluation order. -/
def on_voice_state_update (cfg : GuildConfig) (member : Member)
    (before after : VoiceState) : List Action :=
  (if cfg.vip_enabled then vip_check cfg member before after else []) ++
  (if cfg.forcelimit_enabled then forcelimit_check cfg member after else [])

/-- Whether an action is a capacity adjustment (`channel.edit(user_limit=...)`). -/
def isSetCapacity : Action → Bool
  | Action.SetChannelCapacity _ _ => true
  | Action.ForceDisconnect _ _ => false

/-- Whether an action is a forced disconnect. -/
def isForceDisconnect : Action → Bool
  | Action.SetChannelCapacity _ _ => false
  | Action.ForceDisconnect _ _ => true

/-! ### The forced-disconnect host-call sequence

`_forcelimit_check` performs, in order and with nothing catching
exceptions between them:

    vc = await guild.create_voice_channel(...)
    await member.move_to(vc)
    await vc.delete()

Each `await` can raise (the host call can fail); a raised exception
propagates and the remaining statements are skipped. -/

/-- Which of the three host calls of the forced-disconnect sequence would
    succeed if attempted. -/
structure HostBehavior where
  createOk : Bool
  moveOk : Bool
  deleteOk : Bool
deriving DecidableEq

/-- Outcome of running the straight-line create/move/delete sequence under
    a given host behaviour: whether the temporary channel ended up created,
    whether it ended up deleted, and whether the sequence completed without
    an exception.  A failing call raises, so the calls after it are never
    attempted. -/
structure SeqResult where
  created : Bool
  deleted : Bool
  ok : Bool
deriving DecidableEq

/-- The create/move/delete sequence of `_forcelimit_check`, with exception
    semantics: a failed call aborts the rest of the sequence. -/
def forcedDisconnectSeq (env : HostBehavior) : SeqResult :=
  if env.createOk = false then
    { created := false, deleted := false, ok := false }
  else if env.moveOk = false then
    { created := true, deleted := false, ok := false }
  else if env.deleteOk = false then
    { created := true, deleted := false, ok := false }
  else
    { created := true, deleted := true, ok := true }

/-! ### The ignore/VIP list store

`forcelimit_add` / `forcelimit_remove` / `vip_add` / `vip_remove` all mutate
one of the five per-guild id lists with the same two loop bodies: append an
id if it is not already in the list (else send an "already on list"
message), and `list.remove(id)` (Python: delete the first occurrence, send a
"not on list" message if absent).  Each command accepts several targets per
invocation and the membership test runs against the list as already mutated
within the invocation. -/

/-- One iteration of the add loop: append `id` when absent, else leave the
    list unchanged. -/
def list_add (l : List Nat) (id : Nat) : List Nat :=
  if id ∈ l then l else l ++ [id]

/-- One iteration of the add loop together with its user-visible signal:
    the boolean is `true` exactly when the "already on list" message is sent
    (and then the list is untouched). -/
def add_one (l : List Nat) (id : Nat) : List Nat × Bool :=
  if id ∈ l then (l, true) else (l ++ [id], false)

/-- One iteration of the remove loop: Python `list.remove(id)` semantics,
    deleting the first occurrence; when absent the list is unchanged (the
    command reports "not on list" without error). -/
def list_remove (l : List Nat) (id : Nat) : List Nat :=
  match l with
  | [] => []
  | x :: xs => if x = id then xs else x :: list_remove xs id

/-- A whole add invocation over its `Greedy` list of targets: each target is
    checked against the list as mutated so far. -/
def add_many (l : List Nat) (ids : List Nat) : List Nat :=
  ids.foldl list_add l

/-- A whole remove invocation over its `Greedy` list of targets. -/
def remove_many (l : List Nat) (ids : List Nat) : List Nat :=
  ids.foldl list_remove l

/-- An administrative command touching one particular id list: one add or
    remove invocation with its (possibly repeating) targets. -/
inductive Op where
  | add (ids : List Nat)
  | remove (ids : List Nat)

/-- Apply one administrative command to an id list. -/
def apply_op (l : List Nat) : Op → List Nat
  | Op.add ids => add_many l ids
  | Op.remove ids => remove_many l ids

/-- The state of one of the five id lists after a sequence of administrative
    commands, starting from the registered default `[]`. -/
def apply_ops (ops : List Op) : List Nat :=
  ops.foldl apply_op []

/-! ### Rendering of the lists

`forcelimit_ignorelist` and `vip_list` join the mention strings of the
resolved entries with `", "`, paginate each joined string with
`pagify(content, page_length=1024)`, send "... list is empty" when every
category produced zero pages, and otherwise build one embed per row of
`zip_longest(pages..., fillvalue="None")` with one field per category.

Text is modelled as `List Char`.  Mention strings come from the host
objects; they follow the fixed host format `<@id>` / `<@&id>` / `<#id>`
(every entry is assumed to resolve, as the spec's "resolved display names"
does). -/

/-- The mention string of a resolved member. -/
def memberMention (id : Nat) : List Char :=
  '<' :: '@' :: (Nat.repr id).toList ++ ['>']

/-- The mention string of a resolved role. -/
def roleMention (id : Nat) : List Char :=
  '<' :: '@' :: '&' :: (Nat.repr id).toList ++ ['>']

/-- The mention string of a resolved voice channel. -/
def channelMention (id : Nat) : List Char :=
  '<' :: '#' :: (Nat.repr id).toList ++ ['>']

/-- `", ".join(xs)`. -/
def commaJoin : List (List Char) → List Char
  | [] => []
  | [x] => x
  | x :: y :: xs => x ++ ',' :: ' ' :: commaJoin (y :: xs)

/-- Modelled from the spec: `redbot.core.utils.chat_formatting.pagify` is
    an external library function not in this repository; the spec describes
    it as splitting text into pages under a fixed per-field budget.  It is
    modelled as chunking the text into successive pages of at most
    `page_length` characters; empty text yields no pages. -/
def pagify (page_length : Nat) (text : List Char) : List (List Char) :=
  if h : text = [] then []
  else
    text.take (page_length.max 1) ::
      pagify page_length (text.drop (page_length.max 1))
termination_by text.length
decreasing_by
  simp only [List.length_drop]
  exact Nat.sub_lt (List.length_pos.mpr h)
    (Nat.lt_of_lt_of_le Nat.zero_lt_one (Nat.le_max_right page_length 1))

/-- `itertools.zip_longest` over two page lists with `fillvalue="None"`
    (fill passed explicitly). -/
def zipLongest2 (fill : List Char) (a b : List (List Char)) :
    List (List Char × List Char) :=
  if a = [] ∧ b = [] then []
  else (a.headD fill, b.headD fill) :: zipLongest2 fill a.tail b.tail
termination_by a.length + b.length
decreasing_by
  rename_i h
  rw [not_and_or] at h
  rcases h with h | h <;>
    [have ha := List.length_pos.mpr h; have hb := List.length_pos.mpr h] <;>
    simp only [List.length_tail] <;> omega

/-- `itertools.zip_longest` over three page lists with `fillvalue="None"`. -/
def zipLongest3 (fill : List Char) (a b c : List (List Char)) :
    List (List Char × List Char × List Char) :=
  if a = [] ∧ b = [] ∧ c = [] then []
  else
    (a.headD fill, b.headD fill, c.headD fill) ::
      zipLongest3 fill a.tail b.tail c.tail
termination_by a.length + b.length + c.length
decreasing_by
  rename_i h
  rw [not_and_or, not_and_or] at h
  rcases h with h | h | h <;>
    [have ha := List.length_pos.mpr h;
     have hb := List.length_pos.mpr h;
     have hc := List.length_pos.mpr h] <;>
    simp only [List.length_tail] <;> omega

/-- The `fillvalue="None"` string. -/
def fillNone : List Char := ['N', 'o', 'n', 'e']

/-- Outcome of a list-rendering command: either the single "... list is
    empty" message, or the paginated embed pages (one tuple of field texts
    per page). -/
inductive RenderResult (α : Type) where
  | emptyMessage : RenderResult α
  | pages : List α → RenderResult α

/-- `forcelimit_ignorelist`: join and paginate the three ignore categories,
    report "Ignore list is empty" when all three page lists are empty, else
    build one page per `zip_longest` row with fields (members, roles, voice
    channels). -/
def forcelimit_ignorelist (mlist rlist vlist : List Nat) :
    RenderResult (List Char × List Char × List Char) :=
  let content_members := commaJoin (mlist.map memberMention)
  let content_roles := commaJoin (rlist.map roleMention)
  let content_vcs := commaJoin (vlist.map channelMention)
  let pages_members := pagify 1024 content_members
  let pages_roles := pagify 1024 content_roles
  let pages_vcs := pagify 1024 content_vcs
  if pages_members.length = 0 ∧ pages_roles.length = 0 ∧ pages_vcs.length = 0
  then RenderResult.emptyMessage
  else RenderResult.pages (zipLongest3 fillNone pages_members pages_roles pages_vcs)

/-- `vip_list`: join and paginate the two VIP categories, report "VIP list
    is empty" when both page lists are empty, else build one page per
    `zip_longest` row with fields (members, roles). -/
def vip_list (mlist rlist : List Nat) :
    RenderResult (List Char × List Char) :=
  let content_members := commaJoin (mlist.map memberMention)
  let content_roles := commaJoin (rlist.map roleMention)
  let pages_members := pagify 1024 content_members
  let pages_roles := pagify 1024 content_roles
  if pages_members.length = 0 ∧ pages_roles.length = 0
  then RenderResult.emptyMessage
  else RenderResult.pages (zipLongest2 fillNone pages_members pages_roles)

/-! ## Helper lemmas -/

/-- Every action emitted by an edit leg is a capacity adjustment. -/
theorem mem_limitEdit_isSetCapacity (oc : Option Channel) (f : Nat → Nat) :
    ∀ a ∈ limitEdit oc f, isSetCapacity a = true := by
  intro a ha
  rcases oc with _ | c
  · simp [limitEdit] at ha
  · unfold limitEdit at ha
    split at ha <;> simp_all [isSetCapacity]

/-- Every action emitted by `_vip_check` is a capacity adjustment. -/
theorem mem_vip_check_isSetCapacity (cfg : GuildConfig) (m : Member)
    (before after : VoiceState) :
    ∀ a ∈ vip_check cfg m before after, isSetCapacity a = true := by
  intro a ha
  simp only [vip_check] at ha
  split at ha
  · split at ha
    · rw [List.mem_append] at ha
      rcases ha with ha | ha
      · exact mem_limitEdit_isSetCapacity _ _ a ha
      · exact mem_limitEdit_isSetCapacity _ _ a ha
    · simp at ha
  · simp at ha

/-- Every action emitted by `_forcelimit_check` is a forced disconnect. -/
theorem mem_forcelimit_check_isForceDisconnect (cfg : GuildConfig)
    (m : Member) (after : VoiceState) :
    ∀ a ∈ forcelimit_check cfg m after, isForceDisconnect a = true := by
  intro a ha
  unfold forcelimit_check at ha
  split at ha
  · split at ha
    · split at ha
      · simp at ha
      · simp_all [isForceDisconnect]
    · simp at ha
  · simp at ha

/-- The capacity adjustments of an evaluation are exactly those of its VIP
    step. -/
theorem filter_setCapacity_eq (cfg : GuildConfig) (m : Member)
    (before after : VoiceState) :
    (on_voice_state_update cfg m before after).filter isSetCapacity =
      if cfg.vip_enabled then
        (vip_check cfg m before after).filter isSetCapacity
      else [] := by
  unfold on_voice_state_update
  rw [List.filter_append]
  have h2 : (if cfg.forcelimit_enabled then forcelimit_check cfg m after
      else []).filter isSetCapacity = [] := by
    split
    · rw [List.filter_eq_nil_iff]
      intro a ha
      have := mem_forcelimit_check_isForceDisconnect cfg m after a ha
      cases a <;> simp_all [isSetCapacity, isForceDisconnect]
    · rfl
  rw [h2, List.append_nil]
  split
  · rfl
  · rfl

/-- The forced disconnects of an evaluation are exactly those of its
    ForceLimit step, which emits nothing else. -/
theorem filter_forceDisconnect_eq (cfg : GuildConfig) (m : Member)
    (before after : VoiceState) :
    (on_voice_state_update cfg m before after).filter isForceDisconnect =
      if cfg.forcelimit_enabled then forcelimit_check cfg m after
      else [] := by
  unfold on_voice_state_update
  rw [List.filter_append]
  have h1 : (if cfg.vip_enabled then vip_check cfg m before after
      else []).filter isForceDisconnect = [] := by
    split
    · rw [List.filter_eq_nil_iff]
      intro a ha
      have := mem_vip_check_isSetCapacity cfg m before after a ha
      cases a <;> simp_all [isSetCapacity, isForceDisconnect]
    · rfl
  rw [h1, List.nil_append]
  split
  · exact List.filter_eq_self.mpr
      (mem_forcelimit_check_isForceDisconnect cfg m after)
  · rfl

/-- Removing an id appended at the end of a list it did not occur in
    returns the original list. -/
theorem list_remove_append_self (l : List Nat) (id : Nat) (h : id ∉ l) :
    list_remove (l ++ [id]) id = l := by
  induction l with
  | nil => simp [list_remove]
  | cons x xs ih =>
      rw [List.mem_cons, not_or] at h
      simp only [List.cons_append, list_remove, List.append_eq]
      rw [if_neg (fun hx => h.1 hx.symm), ih h.2]

/-- `list.remove` never introduces elements. -/
theorem mem_list_remove (l : List Nat) (id a : Nat)
    (h : a ∈ list_remove l id) : a ∈ l := by
  induction l with
  | nil => simp [list_remove] at h
  | cons x xs ih =>
      unfold list_remove at h
      split at h
      · exact List.mem_cons_of_mem x h
      · rcases List.mem_cons.mp h with h | h
        · exact h ▸ List.mem_cons_self x xs
        · exact List.mem_cons_of_mem x (ih h)

/-- One add-loop iteration preserves freedom from duplicates. -/
theorem nodup_list_add (l : List Nat) (id : Nat) (h : l.Nodup) :
    (list_add l id).Nodup := by
  unfold list_add
  split
  · exact h
  · rename_i hmem
    rw [List.nodup_append]
    exact ⟨h, List.nodup_singleton id, by simp_all [List.disjoint_left]⟩

/-- One remove-loop iteration preserves freedom from duplicates. -/
theorem nodup_list_remove (l : List Nat) (id : Nat) (h : l.Nodup) :
    (list_remove l id).Nodup := by
  induction l with
  | nil => exact h
  | cons x xs ih =>
      rw [List.nodup_cons] at h
      unfold list_remove
      split
      · exact h.2
      · rw [List.nodup_cons]
        exact ⟨fun hc => h.1 (mem_list_remove xs id x hc), ih h.2⟩

/-- A whole add invocation preserves freedom from duplicates. -/
theorem nodup_add_many (ids : List Nat) (l : List Nat) (h : l.Nodup) :
    (add_many l ids).Nodup := by
  induction ids generalizing l with
  | nil => exact h
  | cons i rest ih => exact ih (list_add l i) (nodup_list_add l i h)

/-- A whole remove invocation preserves freedom from duplicates. -/
theorem nodup_remove_many (ids : List Nat) (l : List Nat) (h : l.Nodup) :
    (remove_many l ids).Nodup := by
  induction ids generalizing l with
  | nil => exact h
  | cons i rest ih => exact ih (list_remove l i) (nodup_list_remove l i h)

/-- Any administrative command preserves freedom from duplicates. -/
theorem nodup_apply_op (l : List Nat) (op : Op) (h : l.Nodup) :
    (apply_op l op).Nodup := by
  cases op with
  | add ids => exact nodup_add_many ids l h
  | remove ids => exact nodup_remove_many ids l h

/-! ## Claim theorems -/

/-- C1: the claim says the temporary channel, once created, is always
    deleted even when the move fails.  The code awaits
    `guild.create_voice_channel`, `member.move_to`, `vc.delete()` in
    sequence with no exception handling, so a failing move skips the
    delete: at the host behaviour where create succeeds and the move
    raises, the temporary channel is created and never deleted. -/
theorem forced_disconnect_leaks_on_move_failure :
    (forcedDisconnectSeq
        { createOk := true, moveOk := false, deleteOk := true }).created = true ∧
      (forcedDisconnectSeq
        { createOk := true, moveOk := false, deleteOk := true }).deleted = false := by
  exact ⟨rfl, rfl⟩

/-- C3 counterexample: when the id is already present, `add` leaves the
    list unchanged but `remove` deletes the existing occurrence, so the
    round trip does not restore the prior state: from `[5]`, add 5 then
    remove 5 yields `[]`, not `[5]`. -/
theorem add_remove_roundtrip_cex :
    ¬ (list_remove (list_add [5] 5) 5 = [5]) := by decide

/-- C3 (amended): for any prior list state and id that is NOT already
    present, performing add then remove of that id returns the list to its
    exact prior state, order and contents included. -/
theorem add_remove_roundtrip (l : List Nat) (id : Nat) (h : id ∉ l) :
    list_remove (list_add l id) id = l := by
  unfold list_add
  rw [if_neg h]
  exact list_remove_append_self l id h

/-- C3 witness: round trip at the concrete list `[3, 4]` and absent id 7. -/
theorem add_remove_roundtrip_witness :
    (7 : Nat) ∉ [3, 4] ∧ list_remove (list_add [3, 4] 7) 7 = [3, 4] :=
  ⟨by decide, add_remove_roundtrip [3, 4] 7 (by decide)⟩

/-- C8: adding an id already present leaves the list unchanged (contents
    and order) and raises the "already on list" signal; adding an absent
    id appends it after the existing entries, which keep their
    first-insertion order. -/
theorem add_idempotent_and_appends (l : List Nat) (id : Nat) :
    (id ∈ l → add_one l id = (l, true)) ∧
      (id ∉ l → add_one l id = (l ++ [id], false)) := by
  constructor
  · intro h
    unfold add_one
    rw [if_pos h]
  · intro h
    unfold add_one
    rw [if_neg h]

/-- C8 witness: adding 2 to `[1, 2]` signals "already" and keeps the list;
    uses the theorem at that concrete input. -/
theorem add_idempotent_and_appends_witness :
    (2 : Nat) ∈ [1, 2] ∧ add_one [1, 2] 2 = ([1, 2], true) :=
  ⟨by decide, (add_idempotent_and_appends [1, 2] 2).1 (by decide)⟩

/-- C10: starting from the registered empty default, any sequence of add
    and remove invocations (each with any multiset of targets, repeats
    included) leaves the id list free of duplicates: the add loop checks
    membership against the list as already mutated within the invocation. -/
theorem id_lists_nodup (ops : List Op) : (apply_ops ops).Nodup := by
  unfold apply_ops
  have h : ∀ (ops : List Op) (l : List Nat), l.Nodup →
      (ops.foldl apply_op l).Nodup := by
    intro ops
    induction ops with
    | nil => exact fun l h => h
    | cons op rest ih =>
        intro l hl
        exact ih (apply_op l op) (nodup_apply_op l op hl)
  exact h ops [] List.nodup_nil

/-- C5: when `vip_enabled` is false, the evaluation of any voice-state
    event produces no capacity-adjustment action, whatever the event and
    the VIP lists hold. -/
theorem no_capacity_action_when_vip_disabled (cfg : GuildConfig)
    (m : Member) (before after : VoiceState)
    (h : cfg.vip_enabled = false) :
    (on_voice_state_update cfg m before after).filter isSetCapacity = [] := by
  rw [filter_setCapacity_eq]
  simp [h]

/-- C5 witness: a join into an over-capacity channel under a config with
    VIP disabled (and nonempty VIP lists) yields no capacity action. -/
theorem no_capacity_action_when_vip_disabled_witness :
    ({ forcelimit_enabled := true, vip_member_list := [1] } :
        GuildConfig).vip_enabled = false ∧
      (on_voice_state_update
          { forcelimit_enabled := true, vip_member_list := [1] }
          ⟨1, []⟩ ⟨none⟩ ⟨some ⟨10, 3, 4⟩⟩).filter isSetCapacity = [] :=
  ⟨rfl, no_capacity_action_when_vip_disabled
    { forcelimit_enabled := true, vip_member_list := [1] }
    ⟨1, []⟩ ⟨none⟩ ⟨some ⟨10, 3, 4⟩⟩ rfl⟩

/-- C6: when the event's source and destination channel are the same
    (mute/deafen-only updates included), the VIP step emits nothing and the
    whole evaluation emits no capacity-adjustment action, for every config
    and VIP list. -/
theorem no_vip_action_on_same_channel (cfg : GuildConfig) (m : Member)
    (before after : VoiceState) (h : before.channel = after.channel) :
    vip_check cfg m before after = [] ∧
      (on_voice_state_update cfg m before after).filter isSetCapacity = [] := by
  have hv : vip_check cfg m before after = [] := by
    unfold vip_check
    rw [if_neg (not_not_intro h)]
  refine ⟨hv, ?_⟩
  rw [filter_setCapacity_eq]
  split
  · rw [hv]
    rfl
  · rfl

/-- C6 witness: a same-channel update for a listed VIP member with VIP
    enabled produces no action at all. -/
theorem no_vip_action_on_same_channel_witness :
    (VoiceState.mk (some ⟨10, 5, 2⟩)).channel
        = (VoiceState.mk (some ⟨10, 5, 2⟩)).channel ∧
      vip_check { vip_enabled := true, vip_member_list := [1] }
        ⟨1, []⟩ ⟨some ⟨10, 5, 2⟩⟩ ⟨some ⟨10, 5, 2⟩⟩ = [] ∧
      (on_voice_state_update { vip_enabled := true, vip_member_list := [1] }
        ⟨1, []⟩ ⟨some ⟨10, 5, 2⟩⟩ ⟨some ⟨10, 5, 2⟩⟩).filter isSetCapacity = [] :=
  ⟨rfl,
    (no_vip_action_on_same_channel { vip_enabled := true, vip_member_list := [1] }
      ⟨1, []⟩ ⟨some ⟨10, 5, 2⟩⟩ ⟨some ⟨10, 5, 2⟩⟩ rfl).1,
    (no_vip_action_on_same_channel { vip_enabled := true, vip_member_list := [1] }
      ⟨1, []⟩ ⟨some ⟨10, 5, 2⟩⟩ ⟨some ⟨10, 5, 2⟩⟩ rfl).2⟩

/-- C2: an evaluation emits a `ForceDisconnect` exactly when ForceLimit is
    enabled, the destination channel exists with non-zero limit exceeded by
    its occupant count, and the member is not exempt by the ignore-member,
    ignore-role or ignore-channel list; when emitted it is exactly one
    `ForceDisconnect` naming the joining member and the destination
    channel; and a member on the ignore-member list is never disconnected. -/
theorem force_disconnect_iff (cfg : GuildConfig) (m : Member)
    (before after : VoiceState) :
    ((on_voice_state_update cfg m before after).filter isForceDisconnect =
      after.channel.elim [] (fun c =>
        if cfg.forcelimit_enabled = true ∧ c.user_limit ≠ 0 ∧
            c.numMembers > c.user_limit ∧
            ¬(m.id ∈ cfg.forcelimit_ignore_member_list
              ∨ (∃ r ∈ m.roles, r ∈ cfg.forcelimit_ignore_role_list)
              ∨ c.id ∈ cfg.forcelimit_ignore_vc_list)
        then [Action.ForceDisconnect m.id c.id] else [])) ∧
    (m.id ∈ cfg.forcelimit_ignore_member_list →
      (on_voice_state_update cfg m before after).filter isForceDisconnect = []) := by
  obtain ⟨oc⟩ := after
  have hmain :
      (on_voice_state_update cfg m before ⟨oc⟩).filter isForceDisconnect =
        oc.elim [] (fun c =>
          if cfg.forcelimit_enabled = true ∧ c.user_limit ≠ 0 ∧
              c.numMembers > c.user_limit ∧
              ¬(m.id ∈ cfg.forcelimit_ignore_member_list
                ∨ (∃ r ∈ m.roles, r ∈ cfg.forcelimit_ignore_role_list)
                ∨ c.id ∈ cfg.forcelimit_ignore_vc_list)
          then [Action.ForceDisconnect m.id c.id] else []) := by
    rw [filter_forceDisconnect_eq]
    cases oc with
    | none => split <;> simp [forcelimit_check]
    | some c =>
        rw [Option.elim_some]
        by_cases hfe : cfg.forcelimit_enabled = true
        · rw [if_pos hfe]
          unfold forcelimit_check
          simp only
          split_ifs <;> first | rfl | tauto | (exfalso; simp_all)
        · rw [if_neg hfe, if_neg (by tauto)]
  refine ⟨hmain, fun hmem => ?_⟩
  rw [hmain]
  cases oc with
  | none => rfl
  | some c =>
      rw [Option.elim_some, if_neg (by tauto)]

/-- C2 witness: Scenario A (capacity 3, post-join occupancy 4, empty ignore
    lists) emits exactly one `ForceDisconnect` for the joining member, and
    the same over-capacity join with the member on the ignore-member list
    emits none; both via the theorem at those concrete inputs. -/
theorem force_disconnect_iff_witness :
    ((on_voice_state_update { forcelimit_enabled := true } ⟨1, []⟩
        ⟨none⟩ ⟨some ⟨10, 3, 4⟩⟩).filter isForceDisconnect
      = [Action.ForceDisconnect 1 10]) ∧
    ((1 : Nat) ∈
        (GuildConfig.mk true [1] [] [] false [] []).forcelimit_ignore_member_list ∧
      (on_voice_state_update (GuildConfig.mk true [1] [] [] false [] [])
          ⟨1, []⟩ ⟨none⟩ ⟨some ⟨10, 3, 4⟩⟩).filter isForceDisconnect = []) :=
  ⟨(force_disconnect_iff { forcelimit_enabled := true } ⟨1, []⟩
      ⟨none⟩ ⟨some ⟨10, 3, 4⟩⟩).1.trans (by decide),
    by decide,
    (force_disconnect_iff (GuildConfig.mk true [1] [] [] false [] [])
        ⟨1, []⟩ ⟨none⟩ ⟨some ⟨10, 3, 4⟩⟩).2 (by decide)⟩

/-- C7: with VIP enabled, a VIP-qualifying member (by id or by a held role)
    moving between two distinct channels yields exactly the decrement of
    the source limit when it is non-zero followed by the increment of the
    destination limit when it is non-zero, in that order. -/
theorem vip_move_capacity_actions (cfg : GuildConfig) (m : Member)
    (x y : Channel)
    (hv : cfg.vip_enabled = true)
    (hq : m.id ∈ cfg.vip_member_list ∨ ∃ r ∈ m.roles, r ∈ cfg.vip_role_list)
    (hne : x ≠ y) :
    (on_voice_state_update cfg m ⟨some x⟩ ⟨some y⟩).filter isSetCapacity =
      (if x.user_limit ≠ 0
        then [Action.SetChannelCapacity x.id (x.user_limit - 1)] else []) ++
      (if y.user_limit ≠ 0
        then [Action.SetChannelCapacity y.id (y.user_limit + 1)] else []) := by
  rw [filter_setCapacity_eq]
  rw [if_pos (by exact_mod_cast hv)]
  have hcond : m.id ∈ cfg.vip_member_list ∨
      m.roles.filter (fun r => decide (r ∈ cfg.vip_role_list)) ≠ [] := by
    rcases hq with hq | ⟨r, hr, hr2⟩
    · exact Or.inl hq
    · exact Or.inr (List.ne_nil_of_mem
        (List.mem_filter.mpr ⟨hr, by simpa using hr2⟩))
  have hvc : vip_check cfg m ⟨some x⟩ ⟨some y⟩ =
      limitEdit (some x) (fun n => n - 1) ++ limitEdit (some y) (fun n => n + 1) := by
    simp only [vip_check]
    rw [if_pos (by simpa using hne)]
    exact if_pos hcond
  rw [hvc, List.filter_append]
  rw [List.filter_eq_self.mpr (mem_limitEdit_isSetCapacity (some x) _)]
  rw [List.filter_eq_self.mpr (mem_limitEdit_isSetCapacity (some y) _)]
  rfl

/-- C7 witness: Scenario C — a VIP member moving from channel 10
    (limit 5) to channel 11 (limit 5) yields `SetChannelCapacity 10 4`
    then `SetChannelCapacity 11 6`; Scenario D — moving instead to channel
    12 with limit 0 yields no action for the destination leg. -/
theorem vip_move_capacity_actions_witness :
    ((on_voice_state_update { vip_enabled := true, vip_member_list := [1] }
        ⟨1, []⟩ ⟨some ⟨10, 5, 2⟩⟩ ⟨some ⟨11, 5, 3⟩⟩).filter isSetCapacity
      = [Action.SetChannelCapacity 10 4, Action.SetChannelCapacity 11 6]) ∧
    ((on_voice_state_update { vip_enabled := true, vip_member_list := [1] }
        ⟨1, []⟩ ⟨some ⟨10, 5, 2⟩⟩ ⟨some ⟨12, 0, 3⟩⟩).filter isSetCapacity
      = [Action.SetChannelCapacity 10 4]) :=
  ⟨(vip_move_capacity_actions { vip_enabled := true, vip_member_list := [1] }
      ⟨1, []⟩ ⟨10, 5, 2⟩ ⟨11, 5, 3⟩ rfl (Or.inl (by decide))
      (by decide)).trans (by decide),
    (vip_move_capacity_actions { vip_enabled := true, vip_member_list := [1] }
      ⟨1, []⟩ ⟨10, 5, 2⟩ ⟨12, 0, 3⟩ rfl (Or.inl (by decide))
      (by decide)).trans (by decide)⟩

/-! ## Rendering lemmas -/

/-- Paginating empty text yields no pages. -/
theorem pagify_nil (n : Nat) : pagify n [] = [] := by
  simp [pagify]

/-- Paginating nonempty text yields at least one page. -/
theorem pagify_ne_nil (n : Nat) (t : List Char) (h : t ≠ []) :
    pagify n t ≠ [] := by
  rw [pagify]
  simp [h]

/-- Every page produced by pagination respects the page budget. -/
theorem pagify_mem_length (n : Nat) (t : List Char) :
    ∀ p ∈ pagify n t, p.length ≤ n.max 1 := by
  intro p hp
  induction t using pagify.induct n with
  | case1 => simp [pagify] at hp
  | case2 t ht ih =>
      rw [pagify, dif_neg ht] at hp
      rcases List.mem_cons.mp hp with hp | hp
      · subst hp
        exact List.length_take_le _ _
      · exact ih hp

/-- Joining a list whose first element is nonempty gives nonempty text. -/
theorem commaJoin_cons_ne_nil (x : List Char) (xs : List (List Char))
    (hx : x ≠ []) : commaJoin (x :: xs) ≠ [] := by
  cases xs with
  | nil => simpa [commaJoin] using hx
  | cons y ys => simp [commaJoin]

/-- Member mentions are nonempty strings. -/
theorem memberMention_ne_nil (id : Nat) : memberMention id ≠ [] := by
  simp [memberMention]

/-- Role mentions are nonempty strings. -/
theorem roleMention_ne_nil (id : Nat) : roleMention id ≠ [] := by
  simp [roleMention]

/-- Channel mentions are nonempty strings. -/
theorem channelMention_ne_nil (id : Nat) : channelMention id ≠ [] := by
  simp [channelMention]

/-- Joining and paginating the mentions of a nonempty id list yields at
    least one page, for any mention format producing nonempty strings. -/
theorem pagify_content_ne_nil (f : Nat → List Char)
    (hf : ∀ id, f id ≠ []) (l : List Nat) (hl : l ≠ []) :
    pagify 1024 (commaJoin (l.map f)) ≠ [] := by
  cases l with
  | nil => exact absurd rfl hl
  | cons x xs =>
      rw [List.map_cons]
      exact pagify_ne_nil _ _ (commaJoin_cons_ne_nil _ _ (hf x))

/-- `zip_longest` over three page lists yields a row whenever some input
    list is nonempty. -/
theorem zipLongest3_ne_nil (fill : List Char) (a b c : List (List Char))
    (h : ¬(a = [] ∧ b = [] ∧ c = [])) : zipLongest3 fill a b c ≠ [] := by
  rw [zipLongest3, if_neg h]
  simp

/-- `zip_longest` over two page lists yields a row whenever some input
    list is nonempty. -/
theorem zipLongest2_ne_nil (fill : List Char) (a b : List (List Char))
    (h : ¬(a = [] ∧ b = [])) : zipLongest2 fill a b ≠ [] := by
  rw [zipLongest2, if_neg h]
  simp

/-- The default of `headD` is the fill or a member of the list. -/
theorem headD_mem_or (fill : List Char) (a : List (List Char)) :
    a.headD fill = fill ∨ a.headD fill ∈ a := by
  cases a <;> simp

/-- Every field of every `zip_longest` row over three page lists is the
    fill value or a page of the corresponding list. -/
theorem zipLongest3_mem (fill : List Char) (a b c : List (List Char)) :
    ∀ p ∈ zipLongest3 fill a b c,
      (p.1 = fill ∨ p.1 ∈ a) ∧ (p.2.1 = fill ∨ p.2.1 ∈ b) ∧
        (p.2.2 = fill ∨ p.2.2 ∈ c) := by
  intro p hp
  induction a, b, c using zipLongest3.induct fill with
  | case1 a b c h =>
      rw [zipLongest3, if_pos h] at hp
      simp at hp
  | case2 a b c h ih =>
      rw [zipLongest3, if_neg h] at hp
      rcases List.mem_cons.mp hp with hp | hp
      · subst hp
        exact ⟨headD_mem_or fill a, headD_mem_or fill b, headD_mem_or fill c⟩
      · obtain ⟨h1, h2, h3⟩ := ih hp
        refine ⟨?_, ?_, ?_⟩
        · rcases h1 with h1 | h1
          · exact Or.inl h1
          · exact Or.inr (List.mem_of_mem_tail h1)
        · rcases h2 with h2 | h2
          · exact Or.inl h2
          · exact Or.inr (List.mem_of_mem_tail h2)
        · rcases h3 with h3 | h3
          · exact Or.inl h3
          · exact Or.inr (List.mem_of_mem_tail h3)

/-- Every field of every `zip_longest` row over two page lists is the fill
    value or a page of the corresponding list. -/
theorem zipLongest2_mem (fill : List Char) (a b : List (List Char)) :
    ∀ p ∈ zipLongest2 fill a b,
      (p.1 = fill ∨ p.1 ∈ a) ∧ (p.2 = fill ∨ p.2 ∈ b) := by
  intro p hp
  induction a, b using zipLongest2.induct fill with
  | case1 a b h =>
      rw [zipLongest2, if_pos h] at hp
      simp at hp
  | case2 a b h ih =>
      rw [zipLongest2, if_neg h] at hp
      rcases List.mem_cons.mp hp with hp | hp
      · subst hp
        exact ⟨headD_mem_or fill a, headD_mem_or fill b⟩
      · obtain ⟨h1, h2⟩ := ih hp
        refine ⟨?_, ?_⟩
        · rcases h1 with h1 | h1
          · exact Or.inl h1
          · exact Or.inr (List.mem_of_mem_tail h1)
        · rcases h2 with h2 | h2
          · exact Or.inl h2
          · exact Or.inr (List.mem_of_mem_tail h2)

/-- A rendered field is within the 1024-character budget: it is either a
    page of one of the paginated contents or the "None" fill. -/
theorem field_le_budget (t : List Char) (src : List Char)
    (h : t = fillNone ∨ t ∈ pagify 1024 src) : t.length ≤ 1024 := by
  rcases h with h | h
  · subst h
    decide
  · have := pagify_mem_length 1024 src t h
    simpa using this

/-- C9: with all categories of a rendering group empty the command sends
    the single "list is empty" message and never an empty paginated embed;
    with at least one category nonempty it produces a nonempty list of
    pages whose every field respects the 1024-character budget — for the
    three-category ignore listing and for the two-category VIP listing. -/
theorem render_empty_or_pages (mlist rlist vlist vmlist vrlist : List Nat) :
    (mlist = [] ∧ rlist = [] ∧ vlist = [] →
      forcelimit_ignorelist mlist rlist vlist = RenderResult.emptyMessage) ∧
    (mlist ≠ [] ∨ rlist ≠ [] ∨ vlist ≠ [] →
      ∃ ps, forcelimit_ignorelist mlist rlist vlist = RenderResult.pages ps ∧
        ps ≠ [] ∧ ∀ p ∈ ps, p.1.length ≤ 1024 ∧ p.2.1.length ≤ 1024 ∧
          p.2.2.length ≤ 1024) ∧
    (vmlist = [] ∧ vrlist = [] →
      vip_list vmlist vrlist = RenderResult.emptyMessage) ∧
    (vmlist ≠ [] ∨ vrlist ≠ [] →
      ∃ ps, vip_list vmlist vrlist = RenderResult.pages ps ∧
        ps ≠ [] ∧ ∀ p ∈ ps, p.1.length ≤ 1024 ∧ p.2.length ≤ 1024) := by
  refine ⟨?_, ?_, ?_, ?_⟩
  · rintro ⟨h1, h2, h3⟩
    subst h1
    subst h2
    subst h3
    simp [forcelimit_ignorelist, commaJoin, pagify_nil]
  · intro h
    have hnot : ¬((pagify 1024 (commaJoin (mlist.map memberMention)) = []) ∧
        (pagify 1024 (commaJoin (rlist.map roleMention)) = []) ∧
        (pagify 1024 (commaJoin (vlist.map channelMention)) = [])) := by
      rintro ⟨hc1, hc2, hc3⟩
      rcases h with h | h | h
      · exact pagify_content_ne_nil memberMention memberMention_ne_nil mlist h hc1
      · exact pagify_content_ne_nil roleMention roleMention_ne_nil rlist h hc2
      · exact pagify_content_ne_nil channelMention channelMention_ne_nil vlist h hc3
    refine ⟨zipLongest3 fillNone
        (pagify 1024 (commaJoin (mlist.map memberMention)))
        (pagify 1024 (commaJoin (rlist.map roleMention)))
        (pagify 1024 (commaJoin (vlist.map channelMention))), ?_, ?_, ?_⟩
    · simp only [forcelimit_ignorelist]
      rw [if_neg (by simpa [List.length_eq_zero] using hnot)]
    · exact zipLongest3_ne_nil _ _ _ _ hnot
    · intro p hp
      obtain ⟨h1, h2, h3⟩ := zipLongest3_mem _ _ _ _ p hp
      exact ⟨field_le_budget _ _ h1, field_le_budget _ _ h2,
        field_le_budget _ _ h3⟩
  · rintro ⟨h1, h2⟩
    subst h1
    subst h2
    simp [vip_list, commaJoin, pagify_nil]
  · intro h
    have hnot : ¬((pagify 1024 (commaJoin (vmlist.map memberMention)) = []) ∧
        (pagify 1024 (commaJoin (vrlist.map roleMention)) = [])) := by
      rintro ⟨hc1, hc2⟩
      rcases h with h | h
      · exact pagify_content_ne_nil memberMention memberMention_ne_nil vmlist h hc1
      · exact pagify_content_ne_nil roleMention roleMention_ne_nil vrlist h hc2
    refine ⟨zipLongest2 fillNone
        (pagify 1024 (commaJoin (vmlist.map memberMention)))
        (pagify 1024 (commaJoin (vrlist.map roleMention))), ?_, ?_, ?_⟩
    · simp only [vip_list]
      rw [if_neg (by simpa [List.length_eq_zero] using hnot)]
    · exact zipLongest2_ne_nil _ _ _ hnot
    · intro p hp
      obtain ⟨h1, h2⟩ := zipLongest2_mem _ _ _ p hp
      exact ⟨field_le_budget _ _ h1, field_le_budget _ _ h2⟩

/-- C9 witness: the empty ignore listing yields the "list is empty"
    message, and a VIP listing with one member and no roles yields
    nonempty budget-respecting pages; both via the theorem at those
    concrete inputs. -/
theorem render_empty_or_pages_witness :
    (([] : List Nat) = [] ∧ ([] : List Nat) = [] ∧ ([] : List Nat) = []) ∧
      forcelimit_ignorelist [] [] [] = RenderResult.emptyMessage ∧
      ∃ ps, vip_list [1] [] = RenderResult.pages ps ∧ ps ≠ [] ∧
        ∀ p ∈ ps, p.1.length ≤ 1024 ∧ p.2.length ≤ 1024 :=
  ⟨⟨rfl, rfl, rfl⟩,
    (render_empty_or_pages [] [] [] [1] []).1 ⟨rfl, rfl, rfl⟩,
    (render_empty_or_pages [] [] [] [1] []).2.2.2
      (Or.inl (by decide))⟩

end VoiceTools
